import Mathlib

/-!
Shallow embedding of `src/main.py` (a CLI task tracker).

The Python program keeps an in-memory list of tasks and mirrors it to a JSON
file after every mutation.  Nondeterministic inputs of the source
(`uuid.uuid4()`, `datetime.datetime.now()`) are passed in as explicit string
arguments; the disk file is a `FileContent` value carried in the store state;
an uncaught Python exception is modelled by `Option.none`.
-/

namespace TaskApp

/-- A task record, mirroring the five attributes set by `Task.__init__`. -/
structure Task where
  id : String
  description : String
  status : String
  createdAt : String
  updatedAt : String
deriving DecidableEq, Repr

/-- `Task.__init__`: every `None` default is replaced by the oracle values
`genId` (for `uuid.uuid4()`), `now1` and `now2` (the two separate
`datetime.now()` calls for `createdAt` and `updatedAt`). -/
def Task.init (description : String) (id : Option String) (status : String)
    (createdAt updatedAt : Option String) (genId now1 now2 : String) : Task :=
  { id := id.getD genId
    description := description
    status := status
    createdAt := createdAt.getD now1
    updatedAt := updatedAt.getD now2 }

/-- A JSON object with string-valued fields, as stored in the backing file. -/
abbrev JsonObj := List (String × String)

/-- Python `data[key]` on a dict: `none` models a raised `KeyError`. -/
def lookupField (d : JsonObj) (key : String) : Option String :=
  (d.find? (fun kv => kv.1 == key)).map (fun kv => kv.2)

/-- `Task.to_dict`: `self.__dict__`, the five fields in assignment order. -/
def Task.to_dict (t : Task) : JsonObj :=
  [("id", t.id), ("description", t.description), ("status", t.status),
   ("createdAt", t.createdAt), ("updatedAt", t.updatedAt)]

/-- `Task.from_dict`: reads the five fields; a missing field raises
`KeyError` (modelled as `none`).  No validation of the values is done. -/
def Task.from_dict (d : JsonObj) : Option Task := do
  let i ← lookupField d "id"
  let desc ← lookupField d "description"
  let s ← lookupField d "status"
  let c ← lookupField d "createdAt"
  let u ← lookupField d "updatedAt"
  pure (Task.init desc (some i) s (some c) (some u) "" "" "")

/-- Contents of the backing file: absent, unparsable as JSON, or a JSON
array of objects. -/
inductive FileContent where
  | missing : FileContent
  | invalid : FileContent
  | records : List JsonObj → FileContent
deriving DecidableEq, Repr

/-- The list comprehension `[Task.from_dict(item) for item in data]`:
fails (uncaught exception) as soon as one element fails. -/
def from_dict_list : List JsonObj → Option (List Task)
  | [] => some []
  | d :: ds => do
    let t ← Task.from_dict d
    let ts ← from_dict_list ds
    pure (t :: ts)

/-- `TaskManager._load_tasks`: `FileNotFoundError` and `JSONDecodeError`
are caught and yield an empty list; a `KeyError` from `Task.from_dict`
is not caught (`none`). -/
def load_tasks : FileContent → Option (List Task)
  | FileContent.missing => some []
  | FileContent.invalid => some []
  | FileContent.records ds => from_dict_list ds

/-- `TaskManager._save_tasks`: serialize every task, overwrite the file. -/
def save_tasks (tasks : List Task) : FileContent :=
  FileContent.records (tasks.map Task.to_dict)

/-- Store state: the in-memory list plus the backing file's contents. -/
structure TaskManager where
  tasks : List Task
  file : FileContent
deriving DecidableEq, Repr

/-- `TaskManager.__init__`: load the file; `none` models a crash during
load. -/
def TaskManager.init (f : FileContent) : Option TaskManager :=
  match load_tasks f with
  | some ts => some { tasks := ts, file := f }
  | none => none

/-- `TaskManager._find_task`: linear scan, first task with matching id. -/
def find_task (tasks : List Task) (u : String) : Option Task :=
  tasks.find? (fun t => t.id == u)

/-- In-place mutation of the first task whose id matches, as performed on
the object returned by `_find_task`. -/
def update_list (u : String) (f : Task → Task) : List Task → List Task
  | [] => []
  | t :: ts => if t.id == u then f t :: ts else t :: update_list u f ts

/-- `self.tasks.remove(task)` where `task` is the first match by id:
removes the element at the first matching position. -/
def delete_list (u : String) : List Task → List Task
  | [] => []
  | t :: ts => if t.id == u then ts else t :: delete_list u ts

/-- `TaskManager.create_task`: build a task with defaults, append, save.
Returns the new state and the printed message. -/
def TaskManager.create_task (tm : TaskManager)
    (description genId now1 now2 : String) : TaskManager × String :=
  let task := Task.init description none "todo" none none genId now1 now2
  let tasks := tm.tasks ++ [task]
  ({ tasks := tasks, file := save_tasks tasks },
   "Task added successfully: " ++ task.id)

/-- `TaskManager.update_task`: find by id; if found set description and
`updatedAt := now`, save; otherwise print not-found and change nothing. -/
def TaskManager.update_task (tm : TaskManager)
    (u newDescription now : String) : TaskManager × String :=
  match find_task tm.tasks u with
  | some _ =>
      let tasks := update_list u
        (fun t => { t with description := newDescription, updatedAt := now })
        tm.tasks
      ({ tasks := tasks, file := save_tasks tasks },
       "Task with id " ++ u ++ " was successfully updated")
  | none => (tm, "Task with id " ++ u ++ " not found.")

/-- `TaskManager.delete_task`: find by id; if found remove it and save;
otherwise print not-found and change nothing. -/
def TaskManager.delete_task (tm : TaskManager) (u : String) :
    TaskManager × String :=
  match find_task tm.tasks u with
  | some _ =>
      let tasks := delete_list u tm.tasks
      ({ tasks := tasks, file := save_tasks tasks },
       "Task with id " ++ u ++ " deleted successfully.")
  | none => (tm, "Task with id " ++ u ++ " not found.")

/-- `TaskManager.mark_task`: find by id; if found set status and
`updatedAt := now`, save; otherwise print not-found and change nothing. -/
def TaskManager.mark_task (tm : TaskManager)
    (u newStatus now : String) : TaskManager × String :=
  match find_task tm.tasks u with
  | some _ =>
      let tasks := update_list u
        (fun t => { t with status := newStatus, updatedAt := now })
        tm.tasks
      ({ tasks := tasks, file := save_tasks tasks },
       "Task with id " ++ u ++ " marked as " ++ newStatus ++ ".")
  | none => (tm, "Task with id " ++ u ++ " not found.")

/-- The five lines printed for one task by `list_tasks`. -/
def task_block (t : Task) : List String :=
  ["\n  - ID: " ++ t.id,
   "    Description: " ++ t.description,
   "    Status: " ++ t.status,
   "    Created At: " ++ t.createdAt,
   "    Updated At: " ++ t.updatedAt]

/-- `TaskManager.list_tasks`: the printed lines.  The source tests
`task.status == status` but prints the same block in both branches. -/
def TaskManager.list_tasks (tm : TaskManager) (status : Option String) :
    List String :=
  if tm.tasks.isEmpty then ["No tasks available."]
  else
    "List of Tasks:" ::
      tm.tasks.flatMap (fun t =>
        if (match status with
            | some s => t.status == s
            | none => false) then task_block t
        else task_block t)

/- Round-trip lemmas. -/

theorem from_dict_to_dict (t : Task) :
    Task.from_dict (Task.to_dict t) = some t := by
  cases t
  rfl

theorem from_dict_list_map_to_dict (ts : List Task) :
    from_dict_list (ts.map Task.to_dict) = some ts := by
  induction ts with
  | nil => rfl
  | cons t ts ih =>
      simp [from_dict_list, from_dict_to_dict, ih]

/-- C4: saving any in-memory collection and loading the result reproduces
the same collection: same ids, descriptions, statuses and timestamps, in
the same order. -/
theorem C4_save_load_roundtrip (ts : List Task) :
    load_tasks (save_tasks ts) = some ts := by
  simp [load_tasks, save_tasks, from_dict_list_map_to_dict]

/- Lemmas about the linear scan and first-match mutation. -/

theorem find_task_eq_none (tasks : List Task) (u : String)
    (h : ∀ t ∈ tasks, t.id ≠ u) : find_task tasks u = none := by
  simp only [find_task, List.find?_eq_none, beq_iff_eq]
  exact h

theorem find_task_append (pre post : List Task) (task : Task) (u : String)
    (hpre : ∀ p ∈ pre, p.id ≠ u) (h : task.id = u) :
    find_task (pre ++ task :: post) u = some task := by
  induction pre with
  | nil => simp [find_task, List.find?_cons, h]
  | cons p ps ih =>
      have hp : (p.id == u) = false :=
        beq_eq_false_iff_ne.mpr (hpre p (List.mem_cons_self p ps))
      have hps := ih (fun q hq => hpre q (List.mem_cons_of_mem p hq))
      simpa [find_task, List.find?_cons, hp] using hps

theorem update_list_append (pre post : List Task) (task : Task) (u : String)
    (f : Task → Task) (hpre : ∀ p ∈ pre, p.id ≠ u) (h : task.id = u) :
    update_list u f (pre ++ task :: post) = pre ++ f task :: post := by
  induction pre with
  | nil => simp [update_list, h]
  | cons p ps ih =>
      have hp : (p.id == u) = false :=
        beq_eq_false_iff_ne.mpr (hpre p (List.mem_cons_self p ps))
      have hps := ih (fun q hq => hpre q (List.mem_cons_of_mem p hq))
      simp [update_list, hp, hps]

theorem delete_list_append (pre post : List Task) (task : Task) (u : String)
    (hpre : ∀ p ∈ pre, p.id ≠ u) (h : task.id = u) :
    delete_list u (pre ++ task :: post) = pre ++ post := by
  induction pre with
  | nil => simp [delete_list, h]
  | cons p ps ih =>
      have hp : (p.id == u) = false :=
        beq_eq_false_iff_ne.mpr (hpre p (List.mem_cons_self p ps))
      have hps := ih (fun q hq => hpre q (List.mem_cons_of_mem p hq))
      simp [delete_list, hp, hps]

theorem mark_task_append (pre post : List Task) (task : Task)
    (u s t : String) (f : FileContent)
    (hpre : ∀ p ∈ pre, p.id ≠ u) (h : task.id = u) :
    TaskManager.mark_task ⟨pre ++ task :: post, f⟩ u s t =
      (⟨pre ++ { task with status := s, updatedAt := t } :: post,
        save_tasks (pre ++ { task with status := s, updatedAt := t } :: post)⟩,
       "Task with id " ++ u ++ " marked as " ++ s ++ ".") := by
  simp [TaskManager.mark_task, find_task_append pre post task u hpre h,
    update_list_append pre post task u _ hpre h]

/-- C7: on an id not present in the collection, Update, Delete and Mark
each print the not-found message and return the state (in-memory list and
backing-file contents) unchanged. -/
theorem C7_notfound_noop (tm : TaskManager) (u d s t : String)
    (h : ∀ task ∈ tm.tasks, task.id ≠ u) :
    tm.update_task u d t = (tm, "Task with id " ++ u ++ " not found.") ∧
    tm.delete_task u = (tm, "Task with id " ++ u ++ " not found.") ∧
    tm.mark_task u s t = (tm, "Task with id " ++ u ++ " not found.") := by
  have hf : find_task tm.tasks u = none := find_task_eq_none _ _ h
  exact ⟨by simp [TaskManager.update_task, hf],
    by simp [TaskManager.delete_task, hf],
    by simp [TaskManager.mark_task, hf]⟩

theorem C7_witness :
    TaskManager.update_task ⟨[⟨"a", "d", "todo", "t", "t"⟩],
        FileContent.missing⟩ "b" "x" "t2" =
      (⟨[⟨"a", "d", "todo", "t", "t"⟩], FileContent.missing⟩,
       "Task with id " ++ "b" ++ " not found.") ∧
    TaskManager.delete_task ⟨[⟨"a", "d", "todo", "t", "t"⟩],
        FileContent.missing⟩ "b" =
      (⟨[⟨"a", "d", "todo", "t", "t"⟩], FileContent.missing⟩,
       "Task with id " ++ "b" ++ " not found.") ∧
    TaskManager.mark_task ⟨[⟨"a", "d", "todo", "t", "t"⟩],
        FileContent.missing⟩ "b" "done" "t2" =
      (⟨[⟨"a", "d", "todo", "t", "t"⟩], FileContent.missing⟩,
       "Task with id " ++ "b" ++ " not found.") :=
  C7_notfound_noop ⟨[⟨"a", "d", "todo", "t", "t"⟩], FileContent.missing⟩
    "b" "x" "done" "t2" (by decide)

/-- C8: on a state whose first task with the given id is `task` (`pre`
holds no task with that id), Update rewrites exactly that task's
description and updatedAt, keeping its id, status and createdAt, and
leaves every other task untouched. -/
theorem C8_update_frame (pre post : List Task) (task : Task)
    (u d t : String) (f : FileContent)
    (hpre : ∀ p ∈ pre, p.id ≠ u) (h : task.id = u) :
    TaskManager.update_task ⟨pre ++ task :: post, f⟩ u d t =
      (⟨pre ++ { task with description := d, updatedAt := t } :: post,
        save_tasks
          (pre ++ { task with description := d, updatedAt := t } :: post)⟩,
       "Task with id " ++ u ++ " was successfully updated") := by
  simp [TaskManager.update_task, find_task_append pre post task u hpre h,
    update_list_append pre post task u _ hpre h]

theorem C8_witness :
    TaskManager.update_task
        ⟨[⟨"a", "da", "todo", "t", "t"⟩, ⟨"b", "db", "done", "t", "t"⟩,
          ⟨"c", "dc", "todo", "t", "t"⟩], FileContent.missing⟩ "b" "new" "t2" =
      (⟨[⟨"a", "da", "todo", "t", "t"⟩] ++
          ⟨"b", "new", "done", "t", "t2"⟩ :: [⟨"c", "dc", "todo", "t", "t"⟩],
        save_tasks ([⟨"a", "da", "todo", "t", "t"⟩] ++
          ⟨"b", "new", "done", "t", "t2"⟩ :: [⟨"c", "dc", "todo", "t", "t"⟩])⟩,
       "Task with id " ++ "b" ++ " was successfully updated") :=
  C8_update_frame [⟨"a", "da", "todo", "t", "t"⟩]
    [⟨"c", "dc", "todo", "t", "t"⟩] ⟨"b", "db", "done", "t", "t"⟩
    "b" "new" "t2" FileContent.missing (by decide) rfl

/-- C10: marking the same task with the same status twice (with clock
readings that do not go backwards) leaves its status equal to that status
after each call, and each call sets its updatedAt to the current reading,
which is at least the previous value. -/
theorem C10_mark_twice (pre post : List Task) (task : Task)
    (u s t1 t2 : String) (f : FileContent)
    (hpre : ∀ p ∈ pre, p.id ≠ u) (h : task.id = u)
    (hmono1 : task.updatedAt ≤ t1) (hmono2 : t1 ≤ t2) :
    (TaskManager.mark_task ⟨pre ++ task :: post, f⟩ u s t1).1.tasks =
      pre ++ { task with status := s, updatedAt := t1 } :: post ∧
    ((TaskManager.mark_task ⟨pre ++ task :: post, f⟩ u s t1).1.mark_task
        u s t2).1.tasks =
      pre ++ { task with status := s, updatedAt := t2 } :: post := by
  obtain ⟨tid, tdesc, tst, tca, tua⟩ := task
  have e1 := mark_task_append pre post ⟨tid, tdesc, tst, tca, tua⟩ u s t1 f
    hpre h
  have e2 := mark_task_append pre post ⟨tid, tdesc, s, tca, t1⟩ u s t2
    (save_tasks (pre ++ ⟨tid, tdesc, s, tca, t1⟩ :: post)) hpre h
  rw [e1]
  exact ⟨rfl, by rw [e2]⟩

theorem C10_witness :
    (TaskManager.mark_task ⟨[] ++ ⟨"a", "d", "todo", "t0", "t0"⟩ :: [],
        FileContent.missing⟩ "a" "done" "t0").1.tasks =
      [] ++ ⟨"a", "d", "done", "t0", "t0"⟩ :: [] ∧
    ((TaskManager.mark_task ⟨[] ++ ⟨"a", "d", "todo", "t0", "t0"⟩ :: [],
        FileContent.missing⟩ "a" "done" "t0").1.mark_task "a" "done" "t0").1.tasks =
      [] ++ ⟨"a", "d", "done", "t0", "t0"⟩ :: [] :=
  C10_mark_twice [] [] ⟨"a", "d", "todo", "t0", "t0"⟩ "a" "done" "t0" "t0"
    FileContent.missing (by decide) rfl (le_refl "t0") (le_refl "t0")

/-- C9: loading a missing or unparsable backing file raises nothing and
yields the empty collection; a subsequent Create writes a file holding
exactly the one new task. -/
theorem C9_missing_file (f : FileContent)
    (h : f = FileContent.missing ∨ f = FileContent.invalid)
    (d g t1 t2 : String) :
    TaskManager.init f = some ⟨[], f⟩ ∧
    ((TaskManager.create_task ⟨[], f⟩ d g t1 t2).1).tasks =
      [⟨g, d, "todo", t1, t2⟩] ∧
    ((TaskManager.create_task ⟨[], f⟩ d g t1 t2).1).file =
      FileContent.records [Task.to_dict ⟨g, d, "todo", t1, t2⟩] := by
  rcases h with h | h <;> subst h <;> exact ⟨rfl, rfl, rfl⟩

/-- C1: a collection holding one task whose status is `todo`, listed with
the filter `done`, still prints that task's full block — the source's
filter branch and its else branch print the same lines, so the filter is
ignored. -/
theorem C1_filter_ignored :
    TaskManager.list_tasks
        ⟨[⟨"a", "buy milk", "todo", "t", "t"⟩], FileContent.missing⟩
        (some "done") =
      ["List of Tasks:", "\n  - ID: a", "    Description: buy milk",
       "    Status: todo", "    Created At: t", "    Updated At: t"] := by
  decide

/- CLI model: the argparse namespace and the `match args.command` block of
`main`.  A namespace entry's value is `none` when argparse stored `None`
(an optional flag that was not given); looking up an attribute argparse
never defined models a raised `AttributeError`, and any exception makes
the whole run `none`. -/

abbrev ArgNamespace := List (String × Option String)

/-- Python `getattr(args, name)`: `none` models `AttributeError`. -/
def getattr_opt (args : ArgNamespace) (name : String) :
    Option (Option String) :=
  (args.find? (fun kv => kv.1 == name)).map (fun kv => kv.2)

/-- Placeholder for the argparse help text printed by `print_help`. -/
def usage_help : List String := ["usage: Task Tracker CLI"]

/-- The dispatch in `main` after `TaskManager(args.filename)` succeeded.
Note the source has no `delete` case: it falls into the default branch.
Accessing an attribute the subparser never defined (such as
`args.new_status` in the `mark` case) yields `none` (AttributeError). -/
def run_command (command : Option String) (args : ArgNamespace)
    (tm : TaskManager) (genId now1 now2 now : String) :
    Option (TaskManager × List String) :=
  match command with
  | some "create" =>
      match getattr_opt args "description" with
      | some (some d) =>
          some ((tm.create_task d genId now1 now2).1,
            [(tm.create_task d genId now1 now2).2])
      | _ => none
  | some "update" =>
      match getattr_opt args "id", getattr_opt args "new_description" with
      | some (some i), some (some nd) =>
          some ((tm.update_task i nd now).1, [(tm.update_task i nd now).2])
      | _, _ => none
  | some "mark" =>
      match getattr_opt args "id", getattr_opt args "new_status" with
      | some (some i), some (some s) =>
          some ((tm.mark_task i s now).1, [(tm.mark_task i s now).2])
      | _, _ => none
  | some "list" =>
      match getattr_opt args "status" with
      | some st => some (tm, tm.list_tasks st)
      | none => none
  | _ => some (tm, usage_help)

/-- `main`: construct the manager from the file, then dispatch. -/
def run_main (command : Option String) (args : ArgNamespace)
    (f : FileContent) (genId now1 now2 now : String) :
    Option (TaskManager × List String) :=
  match TaskManager.init f with
  | some tm => run_command command args tm genId now1 now2 now
  | none => none

/-- The namespace argparse builds for `mark <id> <status>`: the mark
subparser defines positional attributes `id` and `status` (plus the
global `filename` and the `command` dest). -/
def mark_namespace (i s : String) : ArgNamespace :=
  [("filename", some "tasks.json"), ("command", some "mark"),
   ("id", some i), ("status", some s)]

/-- C2: for every id and status, running the `mark` command crashes with
`AttributeError` before `TaskManager.mark_task` runs — the dispatch reads
`args.new_status`, an attribute the mark subparser never defines. -/
theorem C2_mark_attribute_error (i s : String) :
    run_main (some "mark") (mark_namespace i s) FileContent.missing
      "g" "t1" "t2" "t" = none := rfl

/-- C3: a backing file holding a well-formed JSON array whose single
record lacks the `updatedAt` field makes load raise an uncaught
`KeyError` (modelled as `none`) instead of yielding an empty collection. -/
theorem C3_malformed_record_raises :
    TaskManager.init (FileContent.records
        [[("id", "a"), ("description", "d"), ("status", "todo"),
          ("createdAt", "t")]]) = none := rfl

/-- C5 (amended): Create always appends exactly one task — the generated
id, the given description, status `todo`, and the two clock readings as
createdAt and updatedAt — after the unchanged pre-existing tasks; when
additionally the generated id differs from every id already in the
collection, the appended id is not among the old ids, and when the two
clock readings coincide, the appended task's createdAt equals its
updatedAt. -/
theorem C5_create_appends (tm : TaskManager) (d g t1 t2 : String) :
    ((tm.create_task d g t1 t2).1).tasks =
      tm.tasks ++ [Task.init d none "todo" none none g t1 t2] ∧
    ((∀ task ∈ tm.tasks, task.id ≠ g) →
      (Task.init d none "todo" none none g t1 t2).id ∉ tm.tasks.map Task.id) ∧
    (t1 = t2 →
      (Task.init d none "todo" none none g t1 t2).createdAt =
        (Task.init d none "todo" none none g t1 t2).updatedAt) := by
  refine ⟨rfl, ?_, ?_⟩
  · intro hfresh
    simp only [List.mem_map, not_exists, not_and]
    intro task htask hid
    exact hfresh task htask (by simpa [Task.init] using hid)
  · intro hclock
    simpa [Task.init] using hclock

theorem C5_witness :
    ((TaskManager.create_task ⟨[⟨"a", "x", "todo", "t", "t"⟩],
        FileContent.missing⟩ "y" "b" "t1" "t1").1).tasks =
      [⟨"a", "x", "todo", "t", "t"⟩] ++
        [Task.init "y" none "todo" none none "b" "t1" "t1"] ∧
    ((∀ task ∈ ([⟨"a", "x", "todo", "t", "t"⟩] : List Task), task.id ≠ "b") →
      (Task.init "y" none "todo" none none "b" "t1" "t1").id ∉
        ([⟨"a", "x", "todo", "t", "t"⟩] : List Task).map Task.id) ∧
    ("t1" = "t1" →
      (Task.init "y" none "todo" none none "b" "t1" "t1").createdAt =
        (Task.init "y" none "todo" none none "b" "t1" "t1").updatedAt) :=
  C5_create_appends ⟨[⟨"a", "x", "todo", "t", "t"⟩], FileContent.missing⟩
    "y" "b" "t1" "t1"

/-- C5 counterexample: with an existing task of id `a`, a generator
returning `a` again and two clock readings one second apart, the appended
task neither has a fresh id nor equal createdAt and updatedAt. -/
theorem C5_counterexample :
    ¬ (∀ t ∈ ((TaskManager.create_task
          ⟨[⟨"a", "x", "todo", "s", "s"⟩], FileContent.missing⟩
          "y" "a" "2024-01-01 00:00:00" "2024-01-01 00:00:01").1).tasks.drop 1,
        t.id ∉ ["a"] ∧ t.createdAt = t.updatedAt) := by
  decide

/- C6: the status enumeration and the reachable-state invariant. -/

/-- The closed status enumeration, as in the CLI `choices`. -/
def validStatuses : List String := ["in-progress", "todo", "done"]

/-- Every task in the store has a status from the enumeration. -/
def statusInvariant (tm : TaskManager) : Prop :=
  ∀ t ∈ tm.tasks, t.status ∈ validStatuses

instance (tm : TaskManager) : Decidable (statusInvariant tm) := by
  unfold statusInvariant
  infer_instance

/-- One store operation together with its oracle inputs. -/
inductive Op where
  | create (d g t1 t2 : String)
  | update (i d t : String)
  | delete (i : String)
  | mark (i s t : String)
deriving DecidableEq, Repr

def TaskManager.applyOp (tm : TaskManager) : Op → TaskManager
  | Op.create d g t1 t2 => (tm.create_task d g t1 t2).1
  | Op.update i d t => (tm.update_task i d t).1
  | Op.delete i => (tm.delete_task i).1
  | Op.mark i s t => (tm.mark_task i s t).1

def TaskManager.applyOps (tm : TaskManager) (ops : List Op) : TaskManager :=
  ops.foldl TaskManager.applyOp tm

/-- A Mark carries a status from the enumeration; other ops are
unconstrained. -/
def Op.markValid : Op → Prop
  | Op.mark _ s _ => s ∈ validStatuses
  | _ => True

instance (op : Op) : Decidable op.markValid := by
  cases op <;> simp only [Op.markValid] <;> infer_instance

theorem mem_update_list (u : String) (f : Task → Task) (l : List Task)
    (x : Task) (hx : x ∈ update_list u f l) :
    x ∈ l ∨ ∃ y ∈ l, x = f y := by
  induction l with
  | nil => simp [update_list] at hx
  | cons t ts ih =>
      simp only [update_list] at hx
      by_cases h : (t.id == u) = true
      · rw [if_pos h] at hx
        rcases List.mem_cons.mp hx with hx1 | hx1
        · exact Or.inr ⟨t, List.mem_cons_self t ts, hx1⟩
        · exact Or.inl (List.mem_cons_of_mem t hx1)
      · rw [if_neg h] at hx
        rcases List.mem_cons.mp hx with hx1 | hx1
        · exact Or.inl (hx1 ▸ List.mem_cons_self t ts)
        · rcases ih hx1 with h1 | ⟨y, hy, hxy⟩
          · exact Or.inl (List.mem_cons_of_mem t h1)
          · exact Or.inr ⟨y, List.mem_cons_of_mem t hy, hxy⟩

theorem mem_delete_list (u : String) (l : List Task) (x : Task)
    (hx : x ∈ delete_list u l) : x ∈ l := by
  induction l with
  | nil => simp [delete_list] at hx
  | cons t ts ih =>
      simp only [delete_list] at hx
      by_cases h : (t.id == u) = true
      · rw [if_pos h] at hx
        exact List.mem_cons_of_mem t hx
      · rw [if_neg h] at hx
        rcases List.mem_cons.mp hx with hx1 | hx1
        · exact hx1 ▸ List.mem_cons_self t ts
        · exact List.mem_cons_of_mem t (ih hx1)

theorem statusInvariant_applyOp (tm : TaskManager) (op : Op)
    (hinv : statusInvariant tm) (hop : op.markValid) :
    statusInvariant (tm.applyOp op) := by
  cases op with
  | create d g t1 t2 =>
      intro x hx
      simp only [TaskManager.applyOp, TaskManager.create_task,
        List.mem_append, List.mem_singleton] at hx
      rcases hx with hx | hx
      · exact hinv x hx
      · subst hx
        simp [Task.init, validStatuses]
  | update i d t =>
      intro x hx
      simp only [TaskManager.applyOp, TaskManager.update_task] at hx
      cases hfind : find_task tm.tasks i with
      | none => rw [hfind] at hx; exact hinv x hx
      | some task =>
          rw [hfind] at hx
          simp only at hx
          rcases mem_update_list i _ tm.tasks x hx with h1 | ⟨y, hy, hxy⟩
          · exact hinv x h1
          · subst hxy
            exact hinv y hy
  | delete i =>
      intro x hx
      simp only [TaskManager.applyOp, TaskManager.delete_task] at hx
      cases hfind : find_task tm.tasks i with
      | none => rw [hfind] at hx; exact hinv x hx
      | some task =>
          rw [hfind] at hx
          simp only at hx
          exact hinv x (mem_delete_list i tm.tasks x hx)
  | mark i s t =>
      intro x hx
      simp only [TaskManager.applyOp, TaskManager.mark_task] at hx
      cases hfind : find_task tm.tasks i with
      | none => rw [hfind] at hx; exact hinv x hx
      | some task =>
          rw [hfind] at hx
          simp only at hx
          rcases mem_update_list i _ tm.tasks x hx with h1 | ⟨y, hy, hxy⟩
          · exact hinv x h1
          · subst hxy
            exact hop

/-- C6 (amended): if the initial store satisfies the status invariant and
every Mark in a sequence of operations carries a status from the
enumeration, the invariant holds after the whole sequence; Load itself
performs no validation, so the invariant must be assumed for the loaded
state. -/
theorem C6_status_invariant (tm : TaskManager) (ops : List Op)
    (hinv : statusInvariant tm) (hops : ∀ op ∈ ops, op.markValid) :
    statusInvariant (tm.applyOps ops) := by
  induction ops generalizing tm with
  | nil => exact hinv
  | cons op ops ih =>
      exact ih ((tm.applyOp op))
        (statusInvariant_applyOp tm op hinv (hops op (List.mem_cons_self op ops)))
        (fun o ho => hops o (List.mem_cons_of_mem op ho))

theorem C6_witness :
    statusInvariant (TaskManager.applyOps ⟨[], FileContent.missing⟩
      [Op.create "d" "g" "t" "t", Op.mark "g" "done" "t2"]) :=
  C6_status_invariant ⟨[], FileContent.missing⟩
    [Op.create "d" "g" "t" "t", Op.mark "g" "done" "t2"]
    (by decide) (by decide)

/-- C6 counterexample: loading a well-formed file whose task carries the
status `bogus` succeeds and produces a reachable state violating the
invariant — `from_dict` does not validate the status field. -/
theorem C6_counterexample :
    TaskManager.init (FileContent.records
        [[("id", "a"), ("description", "d"), ("status", "bogus"),
          ("createdAt", "t"), ("updatedAt", "t")]]) =
      some ⟨[⟨"a", "d", "bogus", "t", "t"⟩],
        FileContent.records
          [[("id", "a"), ("description", "d"), ("status", "bogus"),
            ("createdAt", "t"), ("updatedAt", "t")]]⟩ ∧
    ¬ statusInvariant ⟨[⟨"a", "d", "bogus", "t", "t"⟩],
        FileContent.records
          [[("id", "a"), ("description", "d"), ("status", "bogus"),
            ("createdAt", "t"), ("updatedAt", "t")]]⟩ := by
  exact ⟨rfl, by decide⟩

theorem C9_witness :
    TaskManager.init FileContent.missing = some ⟨[], FileContent.missing⟩ ∧
    ((TaskManager.create_task ⟨[], FileContent.missing⟩
        "buy milk" "id1" "t" "t").1).tasks = [⟨"id1", "buy milk", "todo", "t", "t"⟩] ∧
    ((TaskManager.create_task ⟨[], FileContent.missing⟩
        "buy milk" "id1" "t" "t").1).file =
      FileContent.records [Task.to_dict ⟨"id1", "buy milk", "todo", "t", "t"⟩] :=
  C9_missing_file FileContent.missing (Or.inl rfl) "buy milk" "id1" "t" "t"

end TaskApp
